import Mathlib

/-!
Shallow embedding of the arbeitszeit work-time ledger engine.

The repository contains two near-identical implementations of the same
engine: a pydantic-based one (`src/arbeitszeit/main.py`, suffix `_az`
below where the variants differ) and a plain one (`src/vanilla.py`,
suffix `_v`).  Text is modelled as `List Char`, Python `datetime.time`
as hour/minute pairs, `datetime.date` as year/month/day triples, and
`datetime.timedelta` as a signed number of whole minutes (every duration
in this program is a whole number of minutes).  Fallible Python code
(raising exceptions) is modelled with `Except`.
-/

set_option maxRecDepth 4000

namespace Arbeitszeit

/-- Ledger text is modelled as a list of characters. -/
abbrev Text := List Char

/-- Python exceptions that the engine can raise.  `assertionError none`
is a bare `assert` failure; pydantic wraps validator failures into
`validationError`; `valueError` is raised by `strptime` on malformed
input; `typeError` is raised by `re.match` when handed a non-string. -/
inductive PyError where
  | validationError (msg : String)
  | assertionError (msg : Option String)
  | valueError (msg : String)
  | typeError
deriving DecidableEq

/-- A wall-clock time (`datetime.time`), hours and minutes only. -/
structure Time where
  hour : Nat
  minute : Nat
deriving DecidableEq

/-- A calendar date (`datetime.date`). -/
structure Date where
  year : Nat
  month : Nat
  day : Nat
deriving DecidableEq

/-- A `datetime.timedelta`, as a signed total number of minutes. -/
abbrev Timedelta := Int

/-- Python compares `datetime.time` values lexicographically. -/
def Time.ltb (a b : Time) : Bool :=
  decide (a.hour < b.hour ∨ (a.hour = b.hour ∧ a.minute < b.minute))

/-- Lexicographic less-or-equal on times (`start <= stop` in vanilla.py). -/
def Time.leb (a b : Time) : Bool :=
  decide (a.hour < b.hour ∨ (a.hour = b.hour ∧ a.minute ≤ b.minute))

/-- Minutes since midnight; `datetime.combine` differences reduce to this. -/
def Time.toMinutes (t : Time) : Nat := 60 * t.hour + t.minute

/-! ## Calendar arithmetic (CPython's datetime internals) -/

/-- Gregorian leap-year test, as in CPython's `_is_leap`. -/
def isLeapYear (y : Nat) : Bool :=
  decide (y % 4 = 0 ∧ (¬ y % 100 = 0 ∨ y % 400 = 0))

/-- Month lengths of a non-leap year. -/
def monthDays : List Nat := [31, 28, 31, 30, 31, 30, 31, 31, 30, 31, 30, 31]

/-- Number of days in month `m` of year `y` (CPython `_days_in_month`). -/
def daysInMonth (y m : Nat) : Nat :=
  if m = 2 ∧ isLeapYear y then 29 else monthDays.getD (m - 1) 0

/-- Days in year `y` before the first of month `m` (CPython `_days_before_month`). -/
def daysBeforeMonth (y m : Nat) : Nat :=
  (monthDays.take (m - 1)).sum + (if 2 < m ∧ isLeapYear y then 1 else 0)

/-- Proleptic Gregorian ordinal of a date, with 0001-01-01 having ordinal 1
(CPython `_ymd2ord`). -/
def ymd2ord (y m d : Nat) : Nat :=
  365 * (y - 1) + (y - 1) / 4 - (y - 1) / 100 + (y - 1) / 400
    + daysBeforeMonth y m + d

/-- `date.weekday()`: Monday is 0, Sunday is 6. -/
def weekdayIdx (d : Date) : Nat :=
  (ymd2ord d.year d.month d.day + 6) % 7

/-- Ordinal of the Monday starting ISO week 1 of `year`
(CPython `_isoweek1monday`; `3` is Thursday). -/
def isoweek1monday (year : Nat) : Int :=
  let firstday : Int := ymd2ord year 1 1
  let firstweekday : Int := Int.emod (firstday + 6) 7
  let week1monday := firstday - firstweekday
  if 3 < firstweekday then week1monday + 7 else week1monday

/-- `date.isocalendar()`: the ISO 8601 (year, week, weekday) triple,
week and weekday 1-based (CPython `date.isocalendar`; `divmod` on ints is
floor division, hence `Int.fdiv`/`Int.emod`). -/
def Date.isocalendar (dte : Date) : Int × Int × Int :=
  let year := dte.year
  let today : Int := ymd2ord dte.year dte.month dte.day
  let wk := Int.fdiv (today - isoweek1monday year) 7
  let dayN := Int.emod (today - isoweek1monday year) 7
  if wk < 0 then
    let wk2 := Int.fdiv (today - isoweek1monday (year - 1)) 7
    let day2 := Int.emod (today - isoweek1monday (year - 1)) 7
    ((year : Int) - 1, wk2 + 1, day2 + 1)
  else if 52 ≤ wk ∧ isoweek1monday (year + 1) ≤ today then
    ((year : Int) + 1, 1, dayN + 1)
  else ((year : Int), wk + 1, dayN + 1)

/-! ## Text codec -/

/-- The `--:--` sentinel (`NONE_TIME` in both variants). -/
def NONE_TIME : Text := "--:--".toList

/-- The literal text `{NONE_TIME}`.  `TIME_REGEX` in main.py is written
`"[0-9]{2}:[0-9]{2}|{NONE_TIME}"` WITHOUT an `f` prefix, so its second
alternative is this literal string, not the `--:--` sentinel. -/
def braceNoneTime : Text := "\x7bNONE_TIME\x7d".toList

/-- Membership in the regex character class `[A-z ]` (which spans the
ASCII range from `A` to `z`, plus a space). -/
def isAzClass (c : Char) : Bool :=
  decide ('A' ≤ c ∧ c ≤ 'z') || c == ' '

/-- Prefix match of `[0-9]{2}:[0-9]{2}`. -/
def matchesHHMM : Text → Bool
  | a :: b :: ':' :: c :: d :: _ => a.isDigit && b.isDigit && c.isDigit && d.isDigit
  | _ => false

/-- Prefix match of `[A-z ]{3} [0-9]{4}-[0-9]{2}-[0-9]{2}` (the
`DATE_REGEX` of main.py and the day+date part of vanilla.py), 14 characters. -/
def matchDate14 : Text → Bool
  | c1 :: c2 :: c3 :: ' ' :: y1 :: y2 :: y3 :: y4 :: '-' :: m1 :: m2 :: '-' :: d1 :: d2 :: _ =>
      isAzClass c1 && isAzClass c2 && isAzClass c3 &&
      y1.isDigit && y2.isDigit && y3.isDigit && y4.isDigit &&
      m1.isDigit && m2.isDigit && d1.isDigit && d2.isDigit
  | _ => false

/-- Prefix match of a space followed by `[0-9]{2}:[0-9]{2}`. -/
def spThenHHMM : Text → Bool
  | ' ' :: rest => matchesHHMM rest
  | _ => false

/-- main.py `is_time`: `re.match(TIME_REGEX, time)`.  Because `TIME_REGEX`
lacks the `f` prefix, the alternatives are `[0-9]{2}:[0-9]{2}` and the
literal `{NONE_TIME}`; `re.match` anchors at the start only, so this is a
prefix match.  The `--:--` sentinel does NOT match. -/
def is_time_az (s : Text) : Bool :=
  matchesHHMM s || braceNoneTime.isPrefixOf s

/-- main.py `is_record`: `re.match(f"{DATE_REGEX} {TIME_REGEX} {TIME_REGEX}", text)`.
After interpolation the pattern is
`[A-z ]{3} [0-9]{4}-[0-9]{2}-[0-9]{2} [0-9]{2}:[0-9]{2}|{NONE_TIME} [0-9]{2}:[0-9]{2}|{NONE_TIME}`
whose top-level `|` yields three alternatives, each prefix-matched:
the date plus ONE digit time, or the literal `{NONE_TIME}` followed by a
space and a digit time, or the literal `{NONE_TIME}` alone. -/
def is_record_az (s : Text) : Bool :=
  (matchDate14 s && spThenHHMM (s.drop 14)) ||
  ((braceNoneTime ++ [' ']).isPrefixOf s && matchesHHMM (s.drop 12)) ||
  braceNoneTime.isPrefixOf s

/-- Prefix match of vanilla.py's `REGEX_TIME = ([0-9]{2}:[0-9]{2}|--:--)`. -/
def matchTimeV : Text → Bool
  | a :: b :: ':' :: c :: d :: _ =>
      (a.isDigit && b.isDigit && c.isDigit && d.isDigit) ||
      (a == '-' && b == '-' && c == '-' && d == '-')
  | _ => false

/-- vanilla.py `is_time`: prefix match of `REGEX_TIME`. -/
def is_time_v (s : Text) : Bool := matchTimeV s

/-- Prefix match of a space followed by `REGEX_TIME`. -/
def spThenTimeV : Text → Bool
  | ' ' :: rest => matchTimeV rest
  | _ => false

/-- vanilla.py `is_record`: prefix match of
`[A-z ]{3} [0-9]{4}-[0-9]{2}-[0-9]{2} ([0-9]{2}:[0-9]{2}|--:--) ([0-9]{2}:[0-9]{2}|--:--)`.
Both time alternatives are five characters, so the fields sit at fixed offsets. -/
def is_record_v (s : Text) : Bool :=
  matchDate14 s && spThenTimeV (s.drop 14) && spThenTimeV (s.drop 20)

/-- Numeric value of a digit character. -/
def digitVal (c : Char) : Nat := c.toNat - 48

/-- Python `f"{n:02}"` formatting of a natural number. -/
def fmt02 (n : Nat) : Text :=
  (if n < 10 then ['0'] else []) ++ (Nat.repr n).toList

/-- strftime `%Y` of a year, zero-padded to four digits (all years in this
development have four digits, where every platform agrees). -/
def fmt04 (n : Nat) : Text :=
  List.replicate (4 - (Nat.repr n).toList.length) '0' ++ (Nat.repr n).toList

/-- The C-locale abbreviated weekday names used by strftime `%a`,
indexed by `date.weekday()`. -/
def dayNames : List Text :=
  ["Mon".toList, "Tue".toList, "Wed".toList, "Thu".toList,
   "Fri".toList, "Sat".toList, "Sun".toList]

/-- `date_to_text`: strftime `"%a %Y-%m-%d"` (identical in both variants;
main.py builds it as `DATE_PATTERN_PREFIX + DATE_PATTERN`). -/
def date_to_text (d : Date) : Text :=
  (dayNames.getD (weekdayIdx d) []) ++ ' ' ::
    (fmt04 d.year ++ '-' :: (fmt02 d.month ++ '-' :: fmt02 d.day))

/-- `time_to_text`: `--:--` for `None`, else strftime `"%H:%M"`. -/
def time_to_text (t : Option Time) : Text :=
  match t with
  | none => NONE_TIME
  | some t => fmt02 t.hour ++ ':' :: fmt02 t.minute

/-- Python `timedelta.days` of a whole-minute timedelta: the normalized
representation uses floor division. -/
def td_days (t : Timedelta) : Int := Int.fdiv t 1440

/-- Python `timedelta.seconds` of a whole-minute timedelta: the
seconds-within-day component, in `[0, 86400)`. -/
def td_seconds (t : Timedelta) : Nat := (Int.emod t 1440).toNat * 60

/-- `timedelta_to_text` (identical in both variants): `--:--` for `None`,
else `f"{hours:02}:{minutes:02}"` where
`hours = timedelta.seconds // 3600` and `minutes = (timedelta.seconds // 60) % 60`.
Note it reads `.seconds`, the within-day component, not the total. -/
def timedelta_to_text (td : Option Timedelta) : Text :=
  match td with
  | none => NONE_TIME
  | some t => fmt02 (td_seconds t / 3600) ++ ':' :: fmt02 (td_seconds t / 60 % 60)

/-- `signed_timedelta_to_text` (identical in both variants): `--:--` for
`None`; otherwise a `+` sign, or a `-` sign after negating when
`timedelta.days < 0`, followed by the `.seconds`-derived `HH:MM`. -/
def signed_timedelta_to_text (td : Option Timedelta) : Text :=
  match td with
  | none => NONE_TIME
  | some t =>
    let p := if td_days t < 0 then (('-' : Char), 0 - t) else (('+' : Char), t)
    p.1 :: (fmt02 (td_seconds p.2 / 3600) ++ ':' :: fmt02 (td_seconds p.2 / 60 % 60))

/-- `strptime(s, "%H:%M")`, returning the parsed time or `none` for a
`ValueError`.  The `%H` directive matches `2[0-3]|[0-1]\d|\d` and `%M`
matches `[0-5]\d|\d`, and the whole string must be consumed. -/
def strptimeHM (s : Text) : Option Time :=
  match s with
  | [a, b, ':', c, d] =>
    if a.isDigit && b.isDigit && c.isDigit && d.isDigit then
      let h := 10 * digitVal a + digitVal b
      let m := 10 * digitVal c + digitVal d
      if h ≤ 23 ∧ m ≤ 59 then some ⟨h, m⟩ else none
    else none
  | [a, ':', c, d] =>
    if a.isDigit && c.isDigit && d.isDigit then
      let m := 10 * digitVal c + digitVal d
      if m ≤ 59 then some ⟨digitVal a, m⟩ else none
    else none
  | [a, b, ':', c] =>
    if a.isDigit && b.isDigit && c.isDigit then
      let h := 10 * digitVal a + digitVal b
      if h ≤ 23 then some ⟨h, digitVal c⟩ else none
    else none
  | [a, ':', c] =>
    if a.isDigit && c.isDigit then some ⟨digitVal a, digitVal c⟩ else none
  | _ => none

/-- `text_to_time`: the sentinel maps to `None`; otherwise
`strptime "%H:%M"`, raising `ValueError` on failure. -/
def text_to_time (s : Text) : Except PyError (Option Time) :=
  if s = NONE_TIME then .ok none
  else
    match strptimeHM s with
    | some t => .ok (some t)
    | none => .error (.valueError "time data does not match format %H:%M")

/-- `text_to_date`: `strptime(text, "%Y-%m-%d")`.  Behind the record
grammar the argument always has the exact `dddd-dd-dd` shape; `strptime`
then range-checks month, and day-of-month against the month length.
The resulting midnight datetime is used as the record's day (pydantic
coerces it to a `date`; vanilla.py keeps the datetime object, which
carries the same year/month/day). -/
def text_to_date (s : Text) : Except PyError Date :=
  match s with
  | [y1, y2, y3, y4, '-', m1, m2, '-', d1, d2] =>
    if y1.isDigit && y2.isDigit && y3.isDigit && y4.isDigit &&
       m1.isDigit && m2.isDigit && d1.isDigit && d2.isDigit then
      let y := 1000 * digitVal y1 + 100 * digitVal y2 + 10 * digitVal y3 + digitVal y4
      let mo := 10 * digitVal m1 + digitVal m2
      let dd := 10 * digitVal d1 + digitVal d2
      if 1 ≤ y ∧ 1 ≤ mo ∧ mo ≤ 12 ∧ 1 ≤ dd ∧ dd ≤ daysInMonth y mo then
        .ok ⟨y, mo, dd⟩
      else .error (.valueError "time data does not match format %Y-%m-%d")
    else .error (.valueError "time data does not match format %Y-%m-%d")
  | _ => .error (.valueError "time data does not match format %Y-%m-%d")

/-- `text_to_timedelta`: the sentinel maps to `None`; otherwise parse
`"%H:%M"` and build `timedelta(hours=h, minutes=m)`. -/
def text_to_timedelta (s : Text) : Except PyError (Option Timedelta) :=
  if s = NONE_TIME then .ok none
  else
    match strptimeHM s with
    | some t => .ok (some ((60 * t.hour + t.minute : Nat) : Int))
    | none => .error (.valueError "time data does not match format %H:%M")

/-- `sum_timedeltas`: `sum(timedeltas, timedelta())`. -/
def sum_timedeltas (l : List Timedelta) : Timedelta := l.foldl (· + ·) 0

/-! ## Record -/

/-- One ledger entry.  The third field is named `end` in main.py and
`stop` in vanilla.py; `end` is a Lean keyword, so the vanilla name is
used.  Equality is structural, matching pydantic's model equality
(vanilla.py defines no `__eq__`, noted where that matters). -/
structure Record where
  day : Date
  start : Option Time
  stop : Option Time
deriving DecidableEq

instance {ε α : Type} [DecidableEq ε] [DecidableEq α] : DecidableEq (Except ε α) :=
  fun a b =>
    match a, b with
    | .ok x, .ok y =>
      if h : x = y then .isTrue (by rw [h]) else .isFalse (by intro hc; cases hc; exact h rfl)
    | .error x, .error y =>
      if h : x = y then .isTrue (by rw [h]) else .isFalse (by intro hc; cases hc; exact h rfl)
    | .ok _, .error _ => .isFalse (by intro hc; cases hc)
    | .error _, .ok _ => .isFalse (by intro hc; cases hc)

/-- Constructing a main.py `Record`: the two pydantic `model_validator`s
run after field assignment; a `ValueError` raised there surfaces as a
pydantic `ValidationError`.  `check_either_start_or_end` rejects a record
with neither time; `check_start_before_end` rejects `start > end` when
both are present. -/
def Record.make (day : Date) (start stop : Option Time) : Except PyError Record :=
  if start = none ∧ stop = none then
    .error (.validationError "Either start or end must be set!")
  else
    match start, stop with
    | some s, some e =>
      if Time.ltb e s then .error (.validationError "Start must come before end!")
      else .ok ⟨day, start, stop⟩
    | _, _ => .ok ⟨day, start, stop⟩

/-- Constructing a vanilla.py `Record`: two plain `assert`s with messages,
then the fields are set. -/
def Record.init_v (day : Date) (start stop : Option Time) : Except PyError Record :=
  if start = none ∧ stop = none then
    .error (.assertionError (some "Either start or stop must be defined!"))
  else
    match start, stop with
    | some s, some e =>
      if Time.leb s e then .ok ⟨day, start, stop⟩
      else .error (.assertionError (some "Start must come before stop!"))
    | _, _ => .ok ⟨day, start, stop⟩

/-- `Record.worktime`: `None` when either time is absent, else the
timedelta `combine(day, stop) - combine(day, start)` (same day, so the
difference of the two times in minutes). -/
def Record.worktime (r : Record) : Option Timedelta :=
  match r.start, r.stop with
  | some s, some e => some ((e.toMinutes : Int) - (s.toMinutes : Int))
  | _, _ => none

/-- `Record.text` (identical in both variants):
`f"{day} {start} {end}"` with the date and time codecs. -/
def Record.text (r : Record) : Text :=
  date_to_text r.day ++ ' ' :: (time_to_text r.start ++ ' ' :: time_to_text r.stop)

/-- main.py `Record.from_text`: `assert is_record(text)` (a bare assert),
then `day, start, end = text[4:].split(" ")` (a `ValueError` if the split
does not give three fields), then the field parsers run in order and the
record is constructed. -/
def Record.from_text_az (line : Text) : Except PyError Record :=
  if is_record_az line then
    match (line.drop 4).splitOn ' ' with
    | [d, s, e] => do
      let day ← text_to_date d
      let start ← text_to_time s
      let stop ← text_to_time e
      Record.make day start stop
    | _ => .error (.valueError "unpack")
  else .error (.assertionError none)

/-- vanilla.py `Record.from_text`: same shape, with the plain constructor. -/
def Record.from_text_v (line : Text) : Except PyError Record :=
  if is_record_v line then
    match (line.drop 4).splitOn ' ' with
    | [d, s, e] => do
      let day ← text_to_date d
      let start ← text_to_time s
      let stop ← text_to_time e
      Record.init_v day start stop
    | _ => .error (.valueError "unpack")
  else .error (.assertionError none)

/-- main.py `Record.from_start`: two bare asserts
(`is_time(start)` and `start != NONE_TIME`), then
`Record(day=today(), start=text_to_time(start), end=None)`.
`today` is passed explicitly here. -/
def Record.from_start_az (s : Text) (today : Date) : Except PyError Record :=
  if is_time_az s then
    if s = NONE_TIME then .error (.assertionError none)
    else do
      let t ← text_to_time s
      Record.make today t none
  else .error (.assertionError none)

/-- main.py `Record.from_end`.  Its first statement is
`assert is_time(start)` where `start` is NOT the parameter (named `end`)
but the module-level CLI command function `start`, so `re.match` receives
a function object and raises `TypeError` on every call; the final line
would also build the record from `start` rather than `end`. -/
def Record.from_end_az (_endText : Text) (_today : Date) : Except PyError Record :=
  .error .typeError

/-- vanilla.py `Record.from_start`: same asserts, plain constructor. -/
def Record.from_start_v (s : Text) (today : Date) : Except PyError Record :=
  if is_time_v s then
    if s = NONE_TIME then .error (.assertionError none)
    else do
      let t ← text_to_time s
      Record.init_v today t none
  else .error (.assertionError none)

/-- vanilla.py `Record.from_stop`: as in main.py, its body reads
`assert is_time(start)` where `start` resolves to the module-level
function `start`, so every call raises `TypeError`. -/
def Record.from_stop_v (_stopText : Text) (_today : Date) : Except PyError Record :=
  .error .typeError

/-! ## Day and Week aggregation -/

/-- A main.py `Day`: a date, the configured baseline worktime
(`worktime_reference` in vanilla.py), and the records of that date. -/
structure Day where
  day : Date
  baseline : Timedelta
  records : List Record
deriving DecidableEq

/-- `Day.from_record`. -/
def Day.from_record (r : Record) (baseline : Timedelta) : Day :=
  ⟨r.day, baseline, [r]⟩

/-- `Day.worktime`: `None` if any member record's worktime is `None`,
else `sum_timedeltas` of the members. -/
def Day.worktime (dy : Day) : Option Timedelta :=
  let ws := dy.records.map Record.worktime
  if ws.any Option.isNone then none
  else some (sum_timedeltas (ws.filterMap id))

/-- main.py `Day.delta`: `-(self.baseline - worktime)` when the worktime
is defined (vanilla.py writes `worktime - self.worktime_reference`, the
same value). -/
def Day.delta (dy : Day) : Option Timedelta :=
  match dy.worktime with
  | none => none
  | some w => some (-(dy.baseline - w))

/-- The ISO week of a main.py `Day`:
`y, w, _ = self.day.isocalendar(); return week(y, w)`. -/
structure IsoWeek where
  year : Int
  week : Int
deriving DecidableEq

/-- `Day.week`. -/
def Day.week (dy : Day) : IsoWeek :=
  match dy.day.isocalendar with
  | (y, w, _) => ⟨y, w⟩

/-- A main.py `Week`: the ISO week key and its member days. -/
structure Week where
  week : IsoWeek
  days : List Day
deriving DecidableEq

/-- `Week.from_day`. -/
def Week.from_day (dy : Day) : Week := ⟨dy.week, [dy]⟩

/-- `Week.worktime`: `None` if any member day's worktime is `None`,
else their sum. -/
def Week.worktime (wk : Week) : Option Timedelta :=
  let ws := wk.days.map Day.worktime
  if ws.any Option.isNone then none
  else some (sum_timedeltas (ws.filterMap id))

/-- `Week.delta`: `None` if any member day's delta is `None`, else their sum. -/
def Week.delta (wk : Week) : Option Timedelta :=
  let ds := wk.days.map Day.delta
  if ds.any Option.isNone then none
  else some (sum_timedeltas (ds.filterMap id))

/-! ## DB: the ledger -/

/-- One step of the `DB.days` loop: `days` is a Python dict keyed by
`record.day`, so the membership test is on the stored keys, a hit appends
the record to the unique entry with that key (`add_record`), and a miss
inserts a fresh `Day` at the end (dicts preserve insertion order). -/
def addRecordStep (baseline : Timedelta) (acc : List Day) (r : Record) : List Day :=
  if r.day ∈ acc.map Day.day then
    acc.map (fun dy => if dy.day = r.day then { dy with records := dy.records ++ [r] } else dy)
  else acc ++ [Day.from_record r baseline]

/-- `DB.days`: group the records by calendar day, in first-encounter
order, returning the dict's values. -/
def DB.days (records : List Record) (baseline : Timedelta) : List Day :=
  records.foldl (addRecordStep baseline) []

/-- One step of the `DB.weeks` loop, keyed by `day.week`. -/
def addDayStep (acc : List Week) (dy : Day) : List Week :=
  if dy.week ∈ acc.map Week.week then
    acc.map (fun wk => if wk.week = dy.week then { wk with days := wk.days ++ [dy] } else wk)
  else acc ++ [Week.from_day dy]

/-- main.py `DB.weeks`: group the `DB.days` output by ISO week, in
first-encounter order. -/
def DB.weeks (records : List Record) (baseline : Timedelta) : List Week :=
  (DB.days records baseline).foldl addDayStep []

/-- `DB.start`: always `records.append(Record(start=time))` — the day
defaults to today, passed explicitly here.  Both variants agree (the
vanilla constructor differs only in its error flavour). -/
def DB.start (records : List Record) (today : Date) (t : Time) :
    Except PyError (List Record) :=
  (Record.make today (some t) none).map (fun r => records ++ [r])

/-- `DB.end` in main.py / `DB.stop` in vanilla.py: if the ledger is empty
or the last record's end is already set, append `Record(end=time)`;
otherwise assign `self.last.end = time` in place.  The assignment runs no
validation (pydantic `validate_assignment` is off; vanilla.py sets a
plain attribute). -/
def DB.stop (records : List Record) (today : Date) (t : Time) :
    Except PyError (List Record) :=
  match records.getLast? with
  | none => (Record.make today none (some t)).map (fun r => records ++ [r])
  | some last =>
    if last.stop.isSome then
      (Record.make today none (some t)).map (fun r => records ++ [r])
    else
      .ok (records.dropLast ++ [{ last with stop := some t }])

/-- main.py `DB.load` over the list of lines: each line goes through
`Record.from_text` inside `try: ... except: raise`, so any failure
propagates unchanged and aborts the whole load (the `print`/`exit` after
the bare `raise` is unreachable). -/
def loadLines_az : List Text → Except PyError (List Record)
  | [] => .ok []
  | l :: ls => do
    let r ← Record.from_text_az l
    let rs ← loadLines_az ls
    .ok (r :: rs)

/-- main.py `DB.load`: a missing file yields an empty ledger; otherwise
parse every line.  `none` models an absent file at `self.path`. -/
def load_az (file : Option (List Text)) : Except PyError (List Record) :=
  match file with
  | none => .ok []
  | some lines => loadLines_az lines

/-- The observable outcome of vanilla.py `DB.load`: a record list, an
uncaught exception, or a printed report followed by `exit(1)`.  The
`exited` case carries what the printed messages identify: the db path,
`lines.index(line)` — the index of the FIRST occurrence of the offending
line's text — and the line itself. -/
inductive LoadResult where
  | ok (records : List Record)
  | raised (e : PyError)
  | exited (code : Nat) (path : Text) (lineIndex : Nat) (line : Text)
deriving DecidableEq

/-- vanilla.py `DB.load` over the lines: `except AssertionError` prints
the error, `f"{self.path}#L{lines.index(line)}: Invalid record '{line}'!"`
and an edit hint, then calls `exit(1)`; other exceptions propagate. -/
def loadLines_v (path : Text) (all : List Text) : List Text → LoadResult
  | [] => .ok []
  | l :: ls =>
    match Record.from_text_v l with
    | .error (.assertionError _) => .exited 1 path (all.indexOf l) l
    | .error e => .raised e
    | .ok r =>
      match loadLines_v path all ls with
      | .ok rs => .ok (r :: rs)
      | other => other

/-- vanilla.py `DB.load`: a missing file yields an empty ledger. -/
def load_v (path : Text) (file : Option (List Text)) : LoadResult :=
  match file with
  | none => .ok []
  | some lines => loadLines_v path lines lines

/-! ## Helper lemmas -/

theorem Time.leb_false_of_ltb {s e : Time} (h : Time.ltb e s = true) :
    Time.leb s e = false := by
  simp only [Time.ltb, decide_eq_true_eq] at h
  simp only [Time.leb, decide_eq_false_iff_not]
  omega

theorem Time.leb_of_ltb_false {s e : Time} (h : Time.ltb e s = false) :
    Time.leb s e = true := by
  simp only [Time.ltb, decide_eq_false_iff_not] at h
  simp only [Time.leb, decide_eq_true_eq]
  omega

theorem Record.make_open (d : Date) (t : Time) :
    Record.make d (some t) none = .ok ⟨d, some t, none⟩ := rfl

theorem Record.make_half (d : Date) (t : Time) :
    Record.make d none (some t) = .ok ⟨d, none, some t⟩ := rfl

theorem Record.worktime_none_of_stop_none {r : Record} (h : r.stop = none) :
    r.worktime = none := by
  cases hs : r.start <;> simp [Record.worktime, h, hs]

/-- Updating the records of the day matching a key does not change the keys. -/
theorem map_day_update (acc : List Day) (r : Record) :
    (acc.map fun dy =>
        if dy.day = r.day then { dy with records := dy.records ++ [r] } else dy).map Day.day
      = acc.map Day.day := by
  rw [List.map_map]
  apply List.map_congr_left
  intro dy _
  by_cases hd : dy.day = r.day <;> simp [hd]

/-- Updating the days of the week matching a key does not change the keys. -/
theorem map_week_update (acc : List Week) (dy : Day) :
    (acc.map fun wk =>
        if wk.week = dy.week then { wk with days := wk.days ++ [dy] } else wk).map Week.week
      = acc.map Week.week := by
  rw [List.map_map]
  apply List.map_congr_left
  intro wk _
  by_cases hw : wk.week = dy.week <;> simp [hw]

/-- One fold step of keeping the first occurrence of each key. -/
def occStep {α : Type} [DecidableEq α] (acc : List α) (x : α) : List α :=
  if x ∈ acc then acc else acc ++ [x]

/-- The list of keys in the order each one is first encountered. -/
def firstOcc {α : Type} [DecidableEq α] (l : List α) : List α :=
  l.foldl occStep []

theorem map_day_addRecordStep (b : Timedelta) (acc : List Day) (r : Record) :
    (addRecordStep b acc r).map Day.day = occStep (acc.map Day.day) r.day := by
  unfold addRecordStep occStep
  by_cases h : r.day ∈ acc.map Day.day
  · rw [if_pos h, if_pos h, map_day_update]
  · rw [if_neg h, if_neg h, List.map_append]
    rfl

theorem map_week_addDayStep (acc : List Week) (dy : Day) :
    (addDayStep acc dy).map Week.week = occStep (acc.map Week.week) dy.week := by
  unfold addDayStep occStep
  by_cases h : dy.week ∈ acc.map Week.week
  · rw [if_pos h, if_pos h, map_week_update]
  · rw [if_neg h, if_neg h, List.map_append]
    rfl

theorem foldDays_map_day (rs : List Record) (b : Timedelta) (acc : List Day) :
    (List.foldl (addRecordStep b) acc rs).map Day.day
      = List.foldl occStep (acc.map Day.day) (rs.map Record.day) := by
  induction rs generalizing acc with
  | nil => rfl
  | cons r rs ih => simp only [List.foldl_cons, List.map_cons, ih, map_day_addRecordStep]

theorem foldWeeks_map_week (ds : List Day) (acc : List Week) :
    (List.foldl addDayStep acc ds).map Week.week
      = List.foldl occStep (acc.map Week.week) (ds.map Day.week) := by
  induction ds generalizing acc with
  | nil => rfl
  | cons dy ds ih => simp only [List.foldl_cons, List.map_cons, ih, map_week_addDayStep]

/-- Every day produced by the grouping fold either extends a day of the
accumulator with the matching records, or is a fresh day holding exactly
the records of its date. -/
theorem foldDays_mem (rs : List Record) (b : Timedelta) (acc : List Day) :
    ∀ dy ∈ List.foldl (addRecordStep b) acc rs,
      (∃ dy0 ∈ acc, dy0.day = dy.day ∧ dy.baseline = dy0.baseline ∧
          dy.records = dy0.records ++ rs.filter (fun r => decide (r.day = dy.day)))
      ∨ (dy.day ∉ acc.map Day.day ∧ dy.baseline = b ∧
          dy.records = rs.filter (fun r => decide (r.day = dy.day))) := by
  induction rs generalizing acc with
  | nil =>
    intro dy hdy
    exact .inl ⟨dy, hdy, rfl, rfl, by simp⟩
  | cons r rs ih =>
    intro dy hdy
    rw [List.foldl_cons] at hdy
    unfold addRecordStep at hdy
    by_cases h : r.day ∈ acc.map Day.day
    · rw [if_pos h] at hdy
      rcases ih _ dy hdy with ⟨dy0', hmem', hday', hb', hrec'⟩ | ⟨hnot', hb', hrec'⟩
      · rcases List.mem_map.mp hmem' with ⟨dy0, hdy0, hupd⟩
        by_cases hd : dy0.day = r.day
        · refine .inl ⟨dy0, hdy0, ?_, ?_, ?_⟩
          · rw [← hday', ← hupd, if_pos hd]
          · rw [hb', ← hupd, if_pos hd]
          · have hdayr : dy.day = r.day := by rw [← hday', ← hupd, if_pos hd, hd]
            rw [hrec', ← hupd, if_pos hd]
            simp [List.filter_cons, hdayr]
        · refine .inl ⟨dy0, hdy0, ?_, ?_, ?_⟩
          · rw [← hday', ← hupd, if_neg hd]
          · rw [hb', ← hupd, if_neg hd]
          · have hdayr : ¬ dy.day = r.day := by
              rw [← hday', ← hupd, if_neg hd]; exact hd
            have hdayr2 : ¬ r.day = dy.day := fun hc => hdayr hc.symm
            rw [hrec', ← hupd, if_neg hd]
            simp [List.filter_cons, hdayr2]
      · rw [map_day_update] at hnot'
        have hne : ¬ r.day = dy.day := fun hc => hnot' (hc ▸ h)
        refine .inr ⟨hnot', hb', ?_⟩
        rw [hrec']
        simp [List.filter_cons, hne]
    · rw [if_neg h] at hdy
      rcases ih _ dy hdy with ⟨dy0', hmem', hday', hb', hrec'⟩ | ⟨hnot', hb', hrec'⟩
      · rcases List.mem_append.mp hmem' with hdy0 | hnew
        · have hne : ¬ dy.day = r.day := by
            intro hc
            exact h (hc ▸ hday' ▸ List.mem_map.mpr ⟨dy0', hdy0, rfl⟩)
          have hne2 : ¬ r.day = dy.day := fun hc => hne hc.symm
          refine .inl ⟨dy0', hdy0, hday', hb', ?_⟩
          rw [hrec']
          simp [List.filter_cons, hne2]
        · have hnew' : dy0' = Day.from_record r b := by simpa using hnew
          have hdayr : dy.day = r.day := by rw [← hday', hnew']; rfl
          refine .inr ⟨hdayr ▸ h, ?_, ?_⟩
          · rw [hb', hnew']; rfl
          · rw [hrec', hnew']
            simp [Day.from_record, List.filter_cons, hdayr]
      · rw [List.map_append] at hnot'
        have hnot : dy.day ∉ acc.map Day.day := fun hc => hnot' (List.mem_append.mpr (.inl hc))
        have hne : ¬ r.day = dy.day := by
          intro hc
          exact hnot' (List.mem_append.mpr (.inr (by simp [Day.from_record, hc.symm])))
        refine .inr ⟨hnot, hb', ?_⟩
        rw [hrec']
        simp [List.filter_cons, hne]

/-- Week-level analogue of `foldDays_mem`. -/
theorem foldWeeks_mem (ds : List Day) (acc : List Week) :
    ∀ wk ∈ List.foldl addDayStep acc ds,
      (∃ wk0 ∈ acc, wk0.week = wk.week ∧
          wk.days = wk0.days ++ ds.filter (fun dy => decide (dy.week = wk.week)))
      ∨ (wk.week ∉ acc.map Week.week ∧
          wk.days = ds.filter (fun dy => decide (dy.week = wk.week))) := by
  induction ds generalizing acc with
  | nil =>
    intro wk hwk
    exact .inl ⟨wk, hwk, rfl, by simp⟩
  | cons dy ds ih =>
    intro wk hwk
    rw [List.foldl_cons] at hwk
    unfold addDayStep at hwk
    by_cases h : dy.week ∈ acc.map Week.week
    · rw [if_pos h] at hwk
      rcases ih _ wk hwk with ⟨wk0', hmem', hweek', hrec'⟩ | ⟨hnot', hrec'⟩
      · rcases List.mem_map.mp hmem' with ⟨wk0, hwk0, hupd⟩
        by_cases hd : wk0.week = dy.week
        · refine .inl ⟨wk0, hwk0, ?_, ?_⟩
          · rw [← hweek', ← hupd, if_pos hd]
          · have hwr : dy.week = wk.week := by rw [← hweek', ← hupd, if_pos hd, hd]
            rw [hrec', ← hupd, if_pos hd]
            simp [List.filter_cons, hwr]
        · refine .inl ⟨wk0, hwk0, ?_, ?_⟩
          · rw [← hweek', ← hupd, if_neg hd]
          · have hwr : ¬ wk.week = dy.week := by
              rw [← hweek', ← hupd, if_neg hd]
              exact hd
            have hwr2 : ¬ dy.week = wk.week := fun hc => hwr hc.symm
            rw [hrec', ← hupd, if_neg hd]
            simp [List.filter_cons, hwr2]
      · rw [map_week_update] at hnot'
        have hne : ¬ dy.week = wk.week := fun hc => hnot' (hc ▸ h)
        refine .inr ⟨hnot', ?_⟩
        rw [hrec']
        simp [List.filter_cons, hne]
    · rw [if_neg h] at hwk
      rcases ih _ wk hwk with ⟨wk0', hmem', hweek', hrec'⟩ | ⟨hnot', hrec'⟩
      · rcases List.mem_append.mp hmem' with hwk0 | hnew
        · have hne : ¬ dy.week = wk.week := by
            intro hc
            exact h (hc ▸ hweek' ▸ List.mem_map.mpr ⟨wk0', hwk0, rfl⟩)
          refine .inl ⟨wk0', hwk0, hweek', ?_⟩
          rw [hrec']
          simp [List.filter_cons, hne]
        · have hnew' : wk0' = Week.from_day dy := by simpa using hnew
          have hwr : dy.week = wk.week := by rw [← hweek', hnew']; rfl
          refine .inr ⟨hwr ▸ h, ?_⟩
          rw [hrec', hnew']
          simp [Week.from_day, List.filter_cons, hwr]
      · rw [List.map_append] at hnot'
        have hnot : wk.week ∉ acc.map Week.week := fun hc => hnot' (List.mem_append.mpr (.inl hc))
        have hne : ¬ dy.week = wk.week := by
          intro hc
          exact hnot' (List.mem_append.mpr (.inr (by simp [Week.from_day, hc])))
        refine .inr ⟨hnot, ?_⟩
        rw [hrec']
        simp [List.filter_cons, hne]

/-- A successful main.py load implies every line passed the record grammar. -/
theorem loadLines_az_ok_grammar (lines : List Text) (rs : List Record)
    (h : loadLines_az lines = .ok rs) : ∀ l ∈ lines, is_record_az l = true := by
  induction lines generalizing rs with
  | nil => intro l hl; cases hl
  | cons l ls ih =>
    intro l' hl'
    rcases hft : Record.from_text_az l with e | r
    · rw [loadLines_az, hft] at h
      cases h
    · rcases hrest : loadLines_az ls with e2 | rs2
      · rw [loadLines_az, hft, hrest] at h
        cases h
      · rcases List.mem_cons.mp hl' with rfl | hls2
        · by_contra hbad
          rw [Record.from_text_az, if_neg (by simpa using hbad)] at hft
          cases hft
        · exact ih rs2 hrest l' hls2

/-- A successful vanilla.py load implies every line passed the record grammar. -/
theorem loadLines_v_ok_grammar (path : Text) (all lines : List Text) (rs : List Record)
    (h : loadLines_v path all lines = .ok rs) : ∀ l ∈ lines, is_record_v l = true := by
  induction lines generalizing rs with
  | nil => intro l hl; cases hl
  | cons l ls ih =>
    intro l' hl'
    rcases hft : Record.from_text_v l with e | r
    · rw [loadLines_v, hft] at h
      rcases e with m | m | m | m <;> cases h
    · rcases hrest : loadLines_v path all ls with rs2 | e2 | ⟨c, p, i, t⟩
      · rcases List.mem_cons.mp hl' with rfl | hls2
        · by_contra hbad
          rw [Record.from_text_v, if_neg (by simpa using hbad)] at hft
          cases hft
        · exact ih rs2 hrest l' hls2
      · rw [loadLines_v, hft, hrest] at h
        cases h
      · rw [loadLines_v, hft, hrest] at h
        cases h

theorem Time.ltb_false_of_leb {s e : Time} (h : Time.leb s e = true) :
    Time.ltb e s = false := by
  simp only [Time.leb, decide_eq_true_eq] at h
  simp only [Time.ltb, decide_eq_false_iff_not]
  omega

/-! ## Claims -/

/-- C1.  The round-trip law fails on main.py for a record with an absent
start (exactly the half-record `DB.end` creates on an empty ledger):
`TIME_REGEX` lacks the `f`-string prefix, so `is_record` never matches
the `--:--` sentinel in the start position and `from_text` fails its
assert on the record's own serialization.  A record with an absent end
still round-trips (only the first time of the pattern's surviving
alternative must be digits, and `re.match` ignores the tail), as does a
record with both times.  Vanilla.py's grammar does accept the line. -/
theorem roundtrip_fails_for_absent_start :
    (⟨⟨2024, 1, 15⟩, none, some ⟨17, 0⟩⟩ : Record).text
      = "Mon 2024-01-15 --:-- 17:00".toList ∧
    is_record_az "Mon 2024-01-15 --:-- 17:00".toList = false ∧
    Record.from_text_az (⟨⟨2024, 1, 15⟩, none, some ⟨17, 0⟩⟩ : Record).text
      = .error (.assertionError none) ∧
    DB.stop [] ⟨2024, 1, 15⟩ ⟨17, 0⟩ = .ok [⟨⟨2024, 1, 15⟩, none, some ⟨17, 0⟩⟩] ∧
    Record.from_text_az (⟨⟨2024, 1, 15⟩, some ⟨9, 0⟩, some ⟨17, 30⟩⟩ : Record).text
      = .ok ⟨⟨2024, 1, 15⟩, some ⟨9, 0⟩, some ⟨17, 30⟩⟩ ∧
    Record.from_text_az (⟨⟨2024, 1, 15⟩, some ⟨9, 0⟩, none⟩ : Record).text
      = .ok ⟨⟨2024, 1, 15⟩, some ⟨9, 0⟩, none⟩ ∧
    is_record_v "Mon 2024-01-15 --:-- 17:00".toList = true := by decide

/-- C2.  The start/stop state machine: `end`/`stop` on an empty ledger or
after a closed record appends a half-record with only the end set; on an
open last record it closes that record in place; `start` always appends
an open record. -/
theorem start_stop_state_machine :
    (∀ (d : Date) (t : Time), DB.stop [] d t = .ok [⟨d, none, some t⟩]) ∧
    (∀ (recs : List Record) (d : Date) (t : Time) (last : Record),
        recs.getLast? = some last → last.stop.isSome = true →
        DB.stop recs d t = .ok (recs ++ [⟨d, none, some t⟩])) ∧
    (∀ (recs : List Record) (d : Date) (t : Time) (last : Record),
        recs.getLast? = some last → last.stop = none →
        DB.stop recs d t = .ok (recs.dropLast ++ [{ last with stop := some t }])) ∧
    (∀ (recs : List Record) (d : Date) (t : Time),
        DB.start recs d t = .ok (recs ++ [⟨d, some t, none⟩])) := by
  refine ⟨fun d t => rfl, ?_, ?_, fun recs d t => rfl⟩
  · intro recs d t last hlast hsome
    simp [DB.stop, hlast, hsome, Record.make_half, Except.map]
  · intro recs d t last hlast hnone
    simp [DB.stop, hlast, hnone]

/-- Witness for C2 at concrete inputs. -/
theorem start_stop_state_machine_witness :
    DB.stop [] ⟨2024, 1, 15⟩ ⟨10, 0⟩ = .ok [⟨⟨2024, 1, 15⟩, none, some ⟨10, 0⟩⟩] ∧
    DB.stop [⟨⟨2024, 1, 15⟩, some ⟨9, 0⟩, some ⟨17, 0⟩⟩] ⟨2024, 1, 16⟩ ⟨18, 0⟩
      = .ok [⟨⟨2024, 1, 15⟩, some ⟨9, 0⟩, some ⟨17, 0⟩⟩, ⟨⟨2024, 1, 16⟩, none, some ⟨18, 0⟩⟩] ∧
    DB.stop [⟨⟨2024, 1, 15⟩, some ⟨9, 0⟩, none⟩] ⟨2024, 1, 15⟩ ⟨17, 0⟩
      = .ok [⟨⟨2024, 1, 15⟩, some ⟨9, 0⟩, some ⟨17, 0⟩⟩] ∧
    DB.start [⟨⟨2024, 1, 15⟩, some ⟨9, 0⟩, none⟩] ⟨2024, 1, 15⟩ ⟨8, 0⟩
      = .ok [⟨⟨2024, 1, 15⟩, some ⟨9, 0⟩, none⟩, ⟨⟨2024, 1, 15⟩, some ⟨8, 0⟩, none⟩] :=
  ⟨start_stop_state_machine.1 ⟨2024, 1, 15⟩ ⟨10, 0⟩,
   start_stop_state_machine.2.1 [⟨⟨2024, 1, 15⟩, some ⟨9, 0⟩, some ⟨17, 0⟩⟩]
     ⟨2024, 1, 16⟩ ⟨18, 0⟩ ⟨⟨2024, 1, 15⟩, some ⟨9, 0⟩, some ⟨17, 0⟩⟩ rfl rfl,
   start_stop_state_machine.2.2.1 [⟨⟨2024, 1, 15⟩, some ⟨9, 0⟩, none⟩]
     ⟨2024, 1, 15⟩ ⟨17, 0⟩ ⟨⟨2024, 1, 15⟩, some ⟨9, 0⟩, none⟩ rfl rfl,
   start_stop_state_machine.2.2.2 [⟨⟨2024, 1, 15⟩, some ⟨9, 0⟩, none⟩] ⟨2024, 1, 15⟩ ⟨8, 0⟩⟩

/-- C3 counterexample.  Closing the open record `{start: 09:00}` with the
earlier time `08:00` succeeds and stores `{start: 09:00, end: 08:00}`,
an I2-violating record, instead of raising `ValidationError`: the
in-place assignment `self.last.end = time` runs no validator. -/
theorem stop_earlier_time_stored_cex :
    DB.stop [⟨⟨2024, 1, 15⟩, some ⟨9, 0⟩, none⟩] ⟨2024, 1, 15⟩ ⟨8, 0⟩
      = .ok [⟨⟨2024, 1, 15⟩, some ⟨9, 0⟩, some ⟨8, 0⟩⟩] ∧
    Time.leb ⟨9, 0⟩ ⟨8, 0⟩ = false := by decide

/-- C3 as amended.  Records built by the constructor are I2-validated,
but closing an open record assigns its end in place with no validation
and never raises, whatever the time. -/
theorem stop_mutation_unvalidated :
    (∀ (recs : List Record) (d : Date) (t : Time) (last : Record),
        recs.getLast? = some last → last.stop = none →
        DB.stop recs d t = .ok (recs.dropLast ++ [{ last with stop := some t }])) ∧
    (∀ (d : Date) (s e : Time) (r : Record),
        Record.make d (some s) (some e) = .ok r → Time.leb s e = true) := by
  constructor
  · intro recs d t last hlast hnone
    simp [DB.stop, hlast, hnone]
  · intro d s e r hmk
    by_cases hlt : Time.ltb e s
    · simp [Record.make, hlt] at hmk
    · exact Time.leb_of_ltb_false (by simpa using hlt)

/-- Witness for the amended C3 at concrete inputs. -/
theorem stop_mutation_unvalidated_witness :
    DB.stop [⟨⟨2024, 1, 15⟩, some ⟨9, 0⟩, none⟩] ⟨2024, 1, 15⟩ ⟨7, 30⟩
      = .ok ([⟨⟨2024, 1, 15⟩, some ⟨9, 0⟩, none⟩].dropLast
          ++ [{ (⟨⟨2024, 1, 15⟩, some ⟨9, 0⟩, none⟩ : Record) with stop := some ⟨7, 30⟩ }]) ∧
    Time.leb ⟨9, 0⟩ ⟨10, 0⟩ = true :=
  ⟨stop_mutation_unvalidated.1 [⟨⟨2024, 1, 15⟩, some ⟨9, 0⟩, none⟩]
     ⟨2024, 1, 15⟩ ⟨7, 30⟩ ⟨⟨2024, 1, 15⟩, some ⟨9, 0⟩, none⟩ rfl rfl,
   stop_mutation_unvalidated.2 ⟨2024, 1, 15⟩ ⟨9, 0⟩ ⟨10, 0⟩
     ⟨⟨2024, 1, 15⟩, some ⟨9, 0⟩, some ⟨10, 0⟩⟩ (by decide)⟩

/-- C4 counterexample.  On a file whose single line fails the record
grammar, the vanilla variant prints its report and exits with status 1
instead of raising, and the pydantic variant re-raises the bare
`AssertionError`, which carries no file or line identification (the
identifying message sits after the bare `raise` and is unreachable). -/
theorem load_error_reporting_cex :
    load_v "arbeitszeit.txt".toList (some ["garbage".toList])
      = .exited 1 "arbeitszeit.txt".toList 0 "garbage".toList ∧
    load_az (some ["garbage".toList]) = .error (.assertionError none) := by decide

/-- C4 as amended.  A line failing the grammar always aborts the load
with no records (all-or-nothing, both variants); the pydantic variant
propagates a bare `AssertionError`, and the vanilla variant exits with
status 1 after printing the path and `lines.index(line)` — the index of
the first occurrence of the offending line's text. -/
theorem load_all_or_nothing :
    (∀ lines : List Text, (∃ l ∈ lines, is_record_az l = false) →
        ∀ rs, load_az (some lines) ≠ .ok rs) ∧
    (∀ (path : Text) (lines : List Text), (∃ l ∈ lines, is_record_v l = false) →
        ∀ rs, load_v path (some lines) ≠ .ok rs) ∧
    (∀ (l : Text) (ls : List Text), is_record_az l = false →
        loadLines_az (l :: ls) = .error (.assertionError none)) ∧
    (∀ (path l : Text) (all ls : List Text), is_record_v l = false →
        loadLines_v path all (l :: ls) = .exited 1 path (all.indexOf l) l) := by
  refine ⟨?_, ?_, ?_, ?_⟩
  · rintro lines ⟨l, hl, hbad⟩ rs hok
    have hgr := loadLines_az_ok_grammar lines rs hok l hl
    rw [hgr] at hbad
    cases hbad
  · rintro path lines ⟨l, hl, hbad⟩ rs hok
    have hgr := loadLines_v_ok_grammar path lines lines rs hok l hl
    rw [hgr] at hbad
    cases hbad
  · intro l ls h
    have hft : Record.from_text_az l = .error (.assertionError none) := by
      rw [Record.from_text_az, if_neg (by simp [h])]
    rw [loadLines_az, hft]
    rfl
  · intro path l all ls h
    have hft : Record.from_text_v l = .error (.assertionError none) := by
      rw [Record.from_text_v, if_neg (by simp [h])]
    rw [loadLines_v, hft]

/-- Witness for the amended C4 at concrete inputs. -/
theorem load_all_or_nothing_witness :
    (∀ rs, load_az (some ["bad line".toList]) ≠ .ok rs) ∧
    loadLines_v "db.txt".toList ["bad line".toList] ["bad line".toList]
      = .exited 1 "db.txt".toList 0 "bad line".toList := by
  constructor
  · exact load_all_or_nothing.1 ["bad line".toList] (by decide)
  · have h := load_all_or_nothing.2.2.2 "db.txt".toList "bad line".toList
      ["bad line".toList] [] (by decide)
    have hidx : (["bad line".toList] : List Text).indexOf "bad line".toList = 0 := by decide
    rw [hidx] at h
    exact h

/-- C5.  Worktime and delta arithmetic: the concrete day from the spec
(baseline 08:00, record 09:00 to 17:30) has worktime 08:30 and delta
+00:30; in general `delta = worktime - baseline`; a day containing a
record with an absent end has undefined worktime and delta; and a week
containing a day with undefined worktime has undefined worktime. -/
theorem worktime_delta_arithmetic :
    ((Day.mk ⟨2024, 1, 15⟩ 480 [⟨⟨2024, 1, 15⟩, some ⟨9, 0⟩, some ⟨17, 30⟩⟩]).worktime
        = some 510 ∧
     (Day.mk ⟨2024, 1, 15⟩ 480 [⟨⟨2024, 1, 15⟩, some ⟨9, 0⟩, some ⟨17, 30⟩⟩]).delta
        = some 30 ∧
     timedelta_to_text (some 510) = "08:30".toList ∧
     timedelta_to_text (some 480) = "08:00".toList ∧
     signed_timedelta_to_text (some 30) = "+00:30".toList) ∧
    (∀ (dy : Day) (w : Timedelta), dy.worktime = some w →
        dy.delta = some (w - dy.baseline)) ∧
    (∀ (dy : Day), ∀ r ∈ dy.records, r.stop = none →
        dy.worktime = none ∧ dy.delta = none) ∧
    (∀ (wk : Week), ∀ dy ∈ wk.days, dy.worktime = none → wk.worktime = none) := by
  refine ⟨by decide, ?_, ?_, ?_⟩
  · intro dy w hw
    simp [Day.delta, hw]
  · intro dy r hr hstop
    have hw : dy.worktime = none := by
      have hany : (dy.records.map Record.worktime).any Option.isNone = true :=
        List.any_eq_true.mpr
          ⟨none, List.mem_map.mpr ⟨r, hr, Record.worktime_none_of_stop_none hstop⟩, rfl⟩
      simp [Day.worktime, hany]
    exact ⟨hw, by simp [Day.delta, hw]⟩
  · intro wk dy hdy hw
    have hany : (wk.days.map Day.worktime).any Option.isNone = true :=
      List.any_eq_true.mpr ⟨none, List.mem_map.mpr ⟨dy, hdy, hw⟩, rfl⟩
    simp [Week.worktime, hany]

/-- Witness for C5 at concrete inputs. -/
theorem worktime_delta_arithmetic_witness :
    (Day.mk ⟨2024, 1, 15⟩ 480 [⟨⟨2024, 1, 15⟩, some ⟨9, 0⟩, some ⟨17, 30⟩⟩]).delta
      = some (510 - (Day.mk ⟨2024, 1, 15⟩ 480
          [⟨⟨2024, 1, 15⟩, some ⟨9, 0⟩, some ⟨17, 30⟩⟩]).baseline) ∧
    ((Day.mk ⟨2024, 1, 16⟩ 480 [⟨⟨2024, 1, 16⟩, some ⟨9, 0⟩, none⟩]).worktime = none ∧
     (Day.mk ⟨2024, 1, 16⟩ 480 [⟨⟨2024, 1, 16⟩, some ⟨9, 0⟩, none⟩]).delta = none) ∧
    (Week.mk ⟨2024, 3⟩
        [Day.mk ⟨2024, 1, 15⟩ 480 [⟨⟨2024, 1, 15⟩, some ⟨9, 0⟩, some ⟨17, 30⟩⟩],
         Day.mk ⟨2024, 1, 16⟩ 480 [⟨⟨2024, 1, 16⟩, some ⟨9, 0⟩, none⟩]]).worktime = none :=
  ⟨worktime_delta_arithmetic.2.1 _ 510 (by decide),
   worktime_delta_arithmetic.2.2.1 _ ⟨⟨2024, 1, 16⟩, some ⟨9, 0⟩, none⟩ (by decide) rfl,
   worktime_delta_arithmetic.2.2.2 _ (Day.mk ⟨2024, 1, 16⟩ 480
     [⟨⟨2024, 1, 16⟩, some ⟨9, 0⟩, none⟩]) (by decide) (by decide)⟩

/-- C6.  Grouping: the days view lists one `Day` per calendar date in
first-encounter order (the order theorem), each holding exactly the
records of its date in ledger order with the configured baseline (the
content theorem); the weeks view groups the days by ISO week the same
way; and the spec's three-record example groups into two days, D1 before
D2, with both D1 records on the first day. -/
theorem days_weeks_grouping :
    (∀ (rs : List Record) (b : Timedelta),
        (DB.days rs b).map Day.day = firstOcc (rs.map Record.day)) ∧
    (∀ (rs : List Record) (b : Timedelta), ∀ dy ∈ DB.days rs b,
        dy.baseline = b ∧ dy.records = rs.filter (fun r => decide (r.day = dy.day))) ∧
    (∀ (rs : List Record) (b : Timedelta),
        (DB.weeks rs b).map Week.week = firstOcc ((DB.days rs b).map Day.week)) ∧
    (∀ (rs : List Record) (b : Timedelta), ∀ wk ∈ DB.weeks rs b,
        wk.days = (DB.days rs b).filter (fun dy => decide (dy.week = wk.week))) ∧
    DB.days
      [⟨⟨2024, 1, 15⟩, some ⟨9, 0⟩, some ⟨12, 0⟩⟩,
       ⟨⟨2024, 1, 16⟩, some ⟨9, 0⟩, some ⟨12, 0⟩⟩,
       ⟨⟨2024, 1, 15⟩, some ⟨13, 0⟩, some ⟨17, 0⟩⟩] 480
      = [⟨⟨2024, 1, 15⟩, 480,
          [⟨⟨2024, 1, 15⟩, some ⟨9, 0⟩, some ⟨12, 0⟩⟩,
           ⟨⟨2024, 1, 15⟩, some ⟨13, 0⟩, some ⟨17, 0⟩⟩]⟩,
         ⟨⟨2024, 1, 16⟩, 480, [⟨⟨2024, 1, 16⟩, some ⟨9, 0⟩, some ⟨12, 0⟩⟩]⟩] := by
  refine ⟨?_, ?_, ?_, ?_, by decide⟩
  · intro rs b
    exact foldDays_map_day rs b []
  · intro rs b dy hdy
    rcases foldDays_mem rs b [] dy hdy with ⟨dy0, hmem, _⟩ | ⟨_, hb, hrec⟩
    · exact (List.not_mem_nil dy0 hmem).elim
    · exact ⟨hb, hrec⟩
  · intro rs b
    exact foldWeeks_map_week (DB.days rs b) []
  · intro rs b wk hwk
    rcases foldWeeks_mem (DB.days rs b) [] wk hwk with ⟨wk0, hmem, _⟩ | ⟨_, hrec⟩
    · exact (List.not_mem_nil wk0 hmem).elim
    · exact hrec

/-- Witness for C6 at concrete inputs. -/
theorem days_weeks_grouping_witness :
    (⟨⟨2024, 1, 15⟩, 480, [⟨⟨2024, 1, 15⟩, some ⟨9, 0⟩, none⟩]⟩ : Day).baseline = 480 ∧
    (⟨⟨2024, 1, 15⟩, 480, [⟨⟨2024, 1, 15⟩, some ⟨9, 0⟩, none⟩]⟩ : Day).records
      = [(⟨⟨2024, 1, 15⟩, some ⟨9, 0⟩, none⟩ : Record)].filter
          (fun r => decide (r.day
            = (⟨⟨2024, 1, 15⟩, 480, [⟨⟨2024, 1, 15⟩, some ⟨9, 0⟩, none⟩]⟩ : Day).day)) :=
  days_weeks_grouping.2.1 [⟨⟨2024, 1, 15⟩, some ⟨9, 0⟩, none⟩] 480
    ⟨⟨2024, 1, 15⟩, 480, [⟨⟨2024, 1, 15⟩, some ⟨9, 0⟩, none⟩]⟩ (by decide)

/-- C7.  Record validation: both times absent is rejected, `start > end`
is rejected, and `start <= end` (including equality) is accepted, in both
variants. -/
theorem record_validation :
    (∀ d : Date, Record.make d none none
        = .error (.validationError "Either start or end must be set!")) ∧
    (∀ d : Date, Record.init_v d none none
        = .error (.assertionError (some "Either start or stop must be defined!"))) ∧
    (∀ (d : Date) (s e : Time), Time.ltb e s = true →
        Record.make d (some s) (some e)
            = .error (.validationError "Start must come before end!") ∧
        Record.init_v d (some s) (some e)
            = .error (.assertionError (some "Start must come before stop!"))) ∧
    (∀ (d : Date) (s e : Time), Time.leb s e = true →
        Record.make d (some s) (some e) = .ok ⟨d, some s, some e⟩ ∧
        Record.init_v d (some s) (some e) = .ok ⟨d, some s, some e⟩) := by
  refine ⟨fun d => rfl, fun d => rfl, ?_, ?_⟩
  · intro d s e h
    refine ⟨by simp [Record.make, h], by simp [Record.init_v, Time.leb_false_of_ltb h]⟩
  · intro d s e h
    refine ⟨by simp [Record.make, Time.ltb_false_of_leb h], by simp [Record.init_v, h]⟩

/-- Witness for C7 at concrete inputs, including the `start = end` case. -/
theorem record_validation_witness :
    (Record.make ⟨2024, 1, 15⟩ (some ⟨17, 0⟩) (some ⟨9, 0⟩)
        = .error (.validationError "Start must come before end!") ∧
     Record.init_v ⟨2024, 1, 15⟩ (some ⟨17, 0⟩) (some ⟨9, 0⟩)
        = .error (.assertionError (some "Start must come before stop!"))) ∧
    (Record.make ⟨2024, 1, 15⟩ (some ⟨9, 0⟩) (some ⟨9, 0⟩)
        = .ok ⟨⟨2024, 1, 15⟩, some ⟨9, 0⟩, some ⟨9, 0⟩⟩ ∧
     Record.init_v ⟨2024, 1, 15⟩ (some ⟨9, 0⟩) (some ⟨9, 0⟩)
        = .ok ⟨⟨2024, 1, 15⟩, some ⟨9, 0⟩, some ⟨9, 0⟩⟩) :=
  ⟨record_validation.2.2.1 ⟨2024, 1, 15⟩ ⟨17, 0⟩ ⟨9, 0⟩ (by decide),
   record_validation.2.2.2 ⟨2024, 1, 15⟩ ⟨9, 0⟩ ⟨9, 0⟩ (by decide)⟩

/-- C8 counterexample.  A 25-hour duration renders as `01:00`, not the
claimed `25:00`: the formatter reads `timedelta.seconds`, the
within-day component, so whole days are dropped. -/
theorem duration_format_25h_cex :
    timedelta_to_text (some (25 * 60)) = "01:00".toList ∧
    ("01:00".toList : Text) ≠ "25:00".toList := by decide

/-- C8 as amended.  `timedelta_to_text` maps an absent duration to
`--:--` and a non-negative duration to zero-padded `HH:MM` where the
hour field is the total whole-hour count REDUCED MODULO 24 (the days
component of the timedelta is dropped). -/
theorem duration_format_mod24 :
    timedelta_to_text none = NONE_TIME ∧
    ∀ mins : Nat, timedelta_to_text (some (mins : Int))
      = fmt02 (mins / 60 % 24) ++ ':' :: fmt02 (mins % 60) := by
  refine ⟨rfl, ?_⟩
  intro mins
  have hsec : td_seconds (mins : Int) = mins % 1440 * 60 := by
    show ((mins : Int) % 1440).toNat * 60 = mins % 1440 * 60
    omega
  have h1 : mins % 1440 * 60 / 3600 = mins / 60 % 24 := by omega
  have h2 : mins % 1440 * 60 / 60 % 60 = mins % 60 := by omega
  simp only [timedelta_to_text, hsec, h1, h2]

/-- C9.  `from_end` (main.py) and `from_stop` (vanilla.py) raise on every
input — their bodies reference the module-level function `start` instead
of their own parameter, so `re.match` receives a function object and
raises `TypeError` before anything else happens.  `from_start` behaves
as specified: it accepts a valid non-sentinel time and rejects the
sentinel. -/
theorem from_end_always_raises :
    (∀ (s : Text) (d : Date), Record.from_end_az s d = .error .typeError) ∧
    (∀ (s : Text) (d : Date), Record.from_stop_v s d = .error .typeError) ∧
    Record.from_start_az "09:00".toList ⟨2024, 1, 15⟩
      = .ok ⟨⟨2024, 1, 15⟩, some ⟨9, 0⟩, none⟩ ∧
    Record.from_start_az NONE_TIME ⟨2024, 1, 15⟩ = .error (.assertionError none) ∧
    Record.from_start_v NONE_TIME ⟨2024, 1, 15⟩ = .error (.assertionError none) ∧
    Record.from_start_v "09:00".toList ⟨2024, 1, 15⟩
      = .ok ⟨⟨2024, 1, 15⟩, some ⟨9, 0⟩, none⟩ :=
  ⟨fun _ _ => rfl, fun _ _ => rfl, by decide, by decide, by decide, by decide⟩

/-- C10.  A missing ledger file loads as the empty record list in both
variants, with no error, and the start and end operations work on the
resulting fresh ledger. -/
theorem load_missing_file_empty :
    load_az none = .ok [] ∧
    (∀ path : Text, load_v path none = .ok []) ∧
    (∀ (d : Date) (t : Time),
        DB.start [] d t = .ok [⟨d, some t, none⟩] ∧
        DB.stop [] d t = .ok [⟨d, none, some t⟩]) :=
  ⟨rfl, fun _ => rfl, fun _ _ => ⟨rfl, rfl⟩⟩

end Arbeitszeit
